import Mathlib

/-!
Verification development for the whet hypermedia library
(src/lib/whet.js). The definitions below are a shallow embedding of the
library code: pure helpers become Lean functions, the stateful pipeline
becomes explicit outcome records, host DOM and network services become
explicit parameters, and code that throws returns Except.
-/

namespace Whet

/-- Form data as iterated by FormData entries: an ordered multimap of field
names to string values. -/
abbrev FormData := List (String × String)

/-- A parsed absolute URL as produced by the URL constructor: scheme
(stored without the trailing colon), path, search parameters and hash
fragment. -/
structure Url where
  scheme : String
  path : String
  query : List (String × String)
  hash : String

/-- The protocol property of a URL object: the scheme followed by a colon,
exactly as the WHATWG URL API exposes it. -/
def Url.protocol (u : Url) : String := u.scheme ++ ":"

/-- Prefix test on the character list of a string (the kernel reduction
friendly rendering of the startsWith test the source performs). -/
def strStartsWith (s p : String) : Bool := p.data.isPrefixOf s.data

/-- Drop of leading characters of a string (the slice operation of the
source, rendered over the character list). -/
def strDrop (s : String) (n : Nat) : String := ⟨s.data.drop n⟩

/-- Uppercasing of a string (the toUpperCase call of the source, rendered
over the character list). -/
def strToUpper (s : String) : String := ⟨s.data.map Char.toUpper⟩

/-- The attr helper of whet.js: look an attribute up by its data- spelling,
then its form spelling, then the bare name, returning the first one that is
present (getAttribute yields the first occurrence in the attribute list). -/
def attrOf (attrs : List (String × String)) (name : String) : Option String :=
  match attrs.lookup ("data-" ++ name) with
  | some v => some v
  | none =>
    match attrs.lookup ("form" ++ name) with
    | some v => some v
    | none => attrs.lookup name

/-- CustomEventInit options relevant here; cancelable defaults to false as
in the DOM. The dispatch helper of whet.js spreads its options argument
over the CustomEvent constructor and every swap related call site passes no
options, so those events keep cancelable at false. -/
structure EventInit where
  cancelable : Bool := false

/-- Return value of EventTarget.dispatchEvent for an event built with the
given options: false exactly when the event is cancelable and some listener
called preventDefault; preventDefault on a non cancelable event is a no-op,
so dispatch then always returns true. -/
def dispatchReturns (opts : EventInit) (listenerPrevents : Bool) : Bool :=
  !(opts.cancelable && listenerPrevents)

/-- Behavior of one promise registered through waitUntil: it either
eventually resolves or never settles. -/
inductive PromiseB where
  | resolves
  | never
deriving DecidableEq

/-- State of the extendable will-fetch event after its synchronous
dispatch: the promises the listeners registered through waitUntil, and the
defaultPrevented flag the dispatcher consults after waiting. -/
structure WillFetchEvent where
  promises : List PromiseB
  defaultPrevented : Bool

/-- The waited method: Promise.all over the registered promises, which
settles exactly when every registered promise resolves. -/
def waitedSettles (e : WillFetchEvent) : Bool :=
  e.promises.all (fun p => p == PromiseB.resolves)

/-- The fixed swap style enumeration of whet.js, in source order. -/
def swapStyles : List String :=
  ["replaceChildren", "replaceWith", "after", "before", "prepend", "append"]

/-- asSwapStyle: return the string if it is a member of the enumeration,
otherwise throw a TypeError with a descriptive message (modelled as the
error branch of Except). -/
def asSwapStyle (s : String) : Except String String :=
  if swapStyles.contains s then Except.ok s
  else Except.error ("Invalid swap style \"" ++ s ++ "\".")

/-- getSwapStyle: validate the resolved swap attribute, defaulting to
replaceChildren when it is absent. -/
def getSwapStyle (swapAttr : Option String) : Except String String :=
  asSwapStyle (swapAttr.getD "replaceChildren")

/-- Object.fromEntries semantics on an entry list: later entries overwrite
the value of an existing key in place, new keys append in first occurrence
order. -/
def upsert : List (String × String) → String → String → List (String × String)
  | [], k, v => [(k, v)]
  | (k0, v0) :: rest, k, v =>
    if k0 = k then (k0, v) :: rest else (k0, v0) :: upsert rest k v

/-- Flatten a form data multimap to one value per key, as
Object.fromEntries does inside the JSON encoder. -/
def fromEntries (l : FormData) : List (String × String) :=
  l.foldl (fun acc kv => upsert acc kv.1 kv.2) []

/-- A request body as produced by the registered encoders: URLSearchParams
built from the entries, the FormData itself, or the JSON serialization of
the flattened object (modelled by its key value pairs). -/
inductive Body where
  | urlencoded (ps : List (String × String))
  | formdata (ps : List (String × String))
  | jsonObj (ps : List (String × String))

/-- The encoder registry after the three builtin addEnctype calls of
whet.js. -/
def encoders : List (String × (FormData → Body)) :=
  [("text/x-www-form-urlencoded", fun d => Body.urlencoded d),
   ("multipart/form-data", fun d => Body.formdata d),
   ("application/json", fun d => Body.jsonObj (fromEntries d))]

/-- encodeData: look the enctype up in the registry; on a miss, log a
diagnostic and fall back to the default urlencoded encoder. -/
def encodeData (enctype : String) (data : FormData) : Body :=
  match encoders.lookup enctype with
  | some enc => enc data
  | none => Body.urlencoded data

/-- The methods the source treats as conventionally bodyless. -/
def httpMethodsWithoutBody : List String := ["GET", "DELETE"]

/-- prepareRequestContent: for methods in httpMethodsWithoutBody the body
is null and the form data collected at call time is appended to a copy of
the destination query parameters; otherwise the body is the encoded form
data and the URL is unchanged. The dataNow argument stands for the value of
the getData call the source performs inside this function, that is the form
state read at request preparation time. -/
def prepareRequestContent (method : String) (href : Url) (enctype : String)
    (dataNow : FormData) : Option Body × Url :=
  if httpMethodsWithoutBody.contains method then
    (none, { href with query := href.query ++ dataNow })
  else
    (some (encodeData enctype dataNow), href)

/-- The request handed to fetch: method, final URL, body and headers. -/
structure PreparedRequest where
  method : String
  url : Url
  body : Option Body
  headers : List (String × String)

/-- Outcome of the network transport for one request. -/
inductive NetResult where
  | ok (text : String)
  | err

/-- Observable outcome of doFetch: the lifecycle events dispatched on the
trigger element in order, the request handed to fetch if any, and the
settling behavior of the returned promise (none when it never settles,
some none for a null result, some (some t) for response text t). -/
structure FetchOutcome where
  events : List String
  request : Option PreparedRequest
  result : Option (Option String)

/-- doFetch: dispatch the extendable will-fetch event, await every promise
registered through waitUntil (never proceeding if one of them never
settles), return null if the defaultPrevented flag is then set, otherwise
prepare the request content from the form state at this time, issue the
request with the Whet marker header, and dispatch did-fetch-headers and
did-fetch around reading the body, or fetch-error on transport failure. -/
def doFetch (wf : WillFetchEvent) (net : NetResult) (method : String)
    (href : Url) (enctype : String) (dataNow : FormData) : FetchOutcome :=
  if waitedSettles wf then
    if wf.defaultPrevented then
      ⟨["whet:will-fetch"], none, some none⟩
    else
      let pr := prepareRequestContent method href enctype dataNow
      let req : PreparedRequest := ⟨method, pr.2, pr.1, [("Whet", "1")]⟩
      match net with
      | NetResult.ok text =>
        ⟨["whet:will-fetch", "whet:did-fetch-headers", "whet:did-fetch"],
         some req, some (some text)⟩
      | NetResult.err =>
        ⟨["whet:will-fetch", "whet:fetch-error"], some req, some none⟩
  else
    ⟨["whet:will-fetch"], none, none⟩

/-- A DOM node in a detached fragment: an element with tag, attributes (in
document order) and child nodes, or a text node. For a template element the
children field models the child nodes of its content fragment. -/
inductive Node where
  | elem (tag : String) (attrs : List (String × String)) (children : List Node)
  | text (s : String)

/-- Target of a swap: an element of the surrounding document (by an
abstract identifier) or the swapped element itself (the :this form on a
response template). -/
inductive Tgt where
  | doc (n : Nat)
  | self

/-- getTarget of whet.js over an abstract element representation: an absent
or empty target attribute resolves to the document body, the literal :this
resolves to the element itself, and any other value is handed to
querySelector, whose result (possibly null) is returned as is. -/
def getTarget {A : Type} (self body : A) (query : String → Option A)
    (targetAttr : Option String) : Option A :=
  match targetAttr with
  | none => some body
  | some s =>
    if s = "" then some body
    else if s = ":this" then some self
    else query s

/-- Raw content handed to swap: response text, or an already parsed
fragment. -/
inductive Content where
  | text (s : String)
  | frag (ns : List Node)

/-- Host services the library calls into: URL resolution against the page
location, document wide querySelector (first match, by element
identifier), the document body element, decodeURIComponent, fragment
querySelectorAll for refined content selection, HTML parsing, and the
javascript: URI evaluator. -/
structure Env where
  resolveUrl : String → Url
  query : String → Option Nat
  body : Nat
  decode : String → String
  selectAll : String → List Node → List Node
  parse : String → List Node
  evalJS : String → Option Content

/-- Whether an attribute list carries the opt-in attribute, as tested by
the selector template[whet], template[data-whet]. -/
def hasWhet (attrs : List (String × String)) : Bool :=
  (attrs.lookup "whet").isSome || (attrs.lookup "data-whet").isSome

/-- One elsewhere swap as performed by insert from doElsewhereSwaps: its
own resolved target, its own swap style, and the content child nodes of the
template that were moved into the target. -/
structure ESwap where
  target : Tgt
  style : String
  content : List Node

/-- doElsewhereSwaps together with the content movement insert performs:
walk the fragment in document order (querySelectorAll never descends into
template content); every template element carrying the opt-in attribute
yields an elsewhere swap built from its own swap style, its own resolved
target and its content child nodes, and the move empties its content when
the target resolved (insert returns before mutating on a null target); an
invalid swap style attribute on such a template propagates as a thrown
TypeError. The template node itself is never removed from the fragment. -/
def processNodes (env : Env) : List Node → Except String (List ESwap × List Node)
  | [] => Except.ok ([], [])
  | Node.text s :: rest =>
    match processNodes env rest with
    | Except.error e => Except.error e
    | Except.ok (sw, rest2) => Except.ok (sw, Node.text s :: rest2)
  | Node.elem tag attrs children :: rest =>
    if tag = "template" then
      if hasWhet attrs then
        match getSwapStyle (attrOf attrs "swap") with
        | Except.error e => Except.error e
        | Except.ok st =>
          let tgt := getTarget Tgt.self (Tgt.doc env.body)
            (fun s => (env.query s).map Tgt.doc) (attrOf attrs "target")
          match tgt with
          | some t =>
            match processNodes env rest with
            | Except.error e => Except.error e
            | Except.ok (sw, rest2) =>
              Except.ok (⟨t, st, children⟩ :: sw, Node.elem tag attrs [] :: rest2)
          | none =>
            match processNodes env rest with
            | Except.error e => Except.error e
            | Except.ok (sw, rest2) =>
              Except.ok (sw, Node.elem tag attrs children :: rest2)
      else
        match processNodes env rest with
        | Except.error e => Except.error e
        | Except.ok (sw, rest2) =>
          Except.ok (sw, Node.elem tag attrs children :: rest2)
    else
      match processNodes env children with
      | Except.error e => Except.error e
      | Except.ok (swc, children2) =>
        match processNodes env rest with
        | Except.error e => Except.error e
        | Except.ok (sw, rest2) =>
          Except.ok (swc ++ sw, Node.elem tag attrs children2 :: rest2)

/-- The template nodes the elsewhere swap selector matches in a fragment,
in document order: template elements carrying the opt-in attribute, never
looking inside template content. -/
def whetTemplates : List Node → List Node
  | [] => []
  | Node.text _ :: rest => whetTemplates rest
  | Node.elem tag attrs children :: rest =>
    if tag = "template" then
      (if hasWhet attrs then [Node.elem tag attrs children] else []) ++
        whetTemplates rest
    else
      whetTemplates children ++ whetTemplates rest

/-- The attribute list of a node (empty for text nodes). -/
def nodeAttrs : Node → List (String × String)
  | Node.elem _ attrs _ => attrs
  | Node.text _ => []

/-- The literal marker that introduces an explicit CSS selector in a
destination hash fragment (the selectorPrefix constant of whet.js). -/
def selectorMarker : String := "#:~:selector="

/-- parseSelectorFragment: strip the marker when present, return null for
an empty remainder, otherwise the decoded selector. A bare fragment is kept
whole, hash sign included, so it acts as an id selector. -/
def parseSelectorFragment (decode : String → String) (hash : String) :
    Option String :=
  let sel :=
    if strStartsWith hash selectorMarker then strDrop hash selectorMarker.length
    else hash
  if sel = "" then none else some (decode sel)

/-- What swap did with the fetched content: the elsewhere swaps performed
and, when the primary insert ran, the nodes it applied to the primary
target. -/
structure SwapOutcome where
  elsewhere : List ESwap
  primary : Option (List Node)

/-- swap: nothing happens for a null context target or null content;
otherwise parse text content into a fragment (an already parsed fragment is
used as is), perform the elsewhere swaps, refine the primary content by the
hash fragment selector when one parses, and hand the refined nodes to the
primary insert (whose dispatches always return true, the events being non
cancelable, so it always applies them). -/
def swapRun (env : Env) (ctxTarget : Option Tgt) (hash : String)
    (raw : Option Content) : Except String SwapOutcome :=
  match ctxTarget with
  | none => Except.ok ⟨[], none⟩
  | some _ =>
    match raw with
    | none => Except.ok ⟨[], none⟩
    | some content =>
      let frag :=
        match content with
        | Content.frag ns => ns
        | Content.text s => env.parse s
      match processNodes env frag with
      | Except.error e => Except.error e
      | Except.ok (sw, frag2) =>
        let refined :=
          match parseSelectorFragment env.decode hash with
          | none => frag2
          | some sel => env.selectAll sel frag2
        Except.ok ⟨sw, some refined⟩

/-- Live form state of an element at one instant, as getData reads it: the
entries of the associated form if one exists, the entries of the element
itself if it is a form, and its own name and value if it is a form
control. -/
structure FormState where
  formEntries : Option (List (String × String))
  ownFormEntries : Option (List (String × String))
  control : Option (String × String)

/-- getData: a fresh FormData built by appending the associated form
entries, the own form entries and the own name value pair, in that order,
duplicates preserved. -/
def getData (fs : FormState) : FormData :=
  (fs.formEntries.getD []) ++ (fs.ownFormEntries.getD []) ++
    (match fs.control with
     | some nv => [nv]
     | none => [])

/-- Static description of a hypermedia control element at actuation: its
attribute list, its identity for :this resolution, the instanceof facts the
getters branch on, and the live form state at the two instants the source
reads it (createExchange at actuation, prepareRequestContent inside
doFetch). -/
structure ElemConf where
  attrs : List (String × String)
  selfId : Nat
  isAnchor : Bool
  isForm : Bool
  formAtActuation : FormState
  formAtFetch : FormState

/-- getHttpMethod: the uppercased explicit attribute, else GET for anchors
and forms, else POST. -/
def getHttpMethod (c : ElemConf) : String :=
  match attrOf c.attrs "method" with
  | some m => strToUpper m
  | none =>
    if c.isAnchor then "GET"
    else if c.isForm then "GET"
    else "POST"

/-- getEnctype: the explicit attribute or the urlencoded default. -/
def getEnctype (c : ElemConf) : String :=
  (attrOf c.attrs "enctype").getD "text/x-www-form-urlencoded"

/-- getHref before URL resolution: action, else href, else src, else the
empty string. -/
def getHrefStr (c : ElemConf) : String :=
  ((attrOf c.attrs "action").orElse (fun _ => (attrOf c.attrs "href"))
    |>.orElse (fun _ => (attrOf c.attrs "src"))).getD ""

/-- The HypermediaExchange descriptor built by createExchange (the event
and element references are carried separately by the pipeline model). -/
structure HypEx where
  href : Url
  method : String
  enctype : String
  data : FormData
  target : Option Nat
  swap : String

/-- createExchange: resolve every descriptor field from the element; swap
style validation throws on an invalid value, before any event is dispatched
and before any request: the whole exchange then fails synchronously. -/
def createExchange (env : Env) (c : ElemConf) : Except String HypEx :=
  match getSwapStyle (attrOf c.attrs "swap") with
  | Except.error e => Except.error e
  | Except.ok sw =>
    Except.ok
      { href := env.resolveUrl (getHrefStr c)
        method := getHttpMethod c
        enctype := getEnctype c
        data := getData c.formAtActuation
        target := getTarget c.selfId env.body env.query (attrOf c.attrs "target")
        swap := sw }

/-- Observable outcome of actuate: the lifecycle events dispatched on the
trigger element in order, the request handed to fetch if any, whether the
underlying promise ever settles, the synchronous configuration error if
createExchange threw, and the swap result when the swap stage ran. -/
structure ActuateOutcome where
  events : List String
  request : Option PreparedRequest
  settled : Bool
  confError : Option String
  swapResult : Option (Except String SwapOutcome)

/-- actuate: build the exchange descriptor (propagating its synchronous
error), dispatch actuated, then either evaluate a javascript: destination
locally or run doFetch, and finally hand the content to swap. The
javascript branch tests the protocol property against the string javascript
without a trailing colon. If doFetch never settles, nothing after it
runs. -/
def actuate (env : Env) (c : ElemConf) (wf : WillFetchEvent)
    (net : NetResult) : ActuateOutcome :=
  match createExchange env c with
  | Except.error e => ⟨[], none, true, some e, none⟩
  | Except.ok ex =>
    if ex.href.protocol == "javascript" then
      let content := env.evalJS ex.href.path
      ⟨["actuated"], none, true, none,
        some (swapRun env (ex.target.map Tgt.doc) ex.href.hash content)⟩
    else
      let fo := doFetch wf net ex.method ex.href ex.enctype
        (getData c.formAtFetch)
      match fo.result with
      | none => ⟨"actuated" :: fo.events, fo.request, false, none, none⟩
      | some content =>
        ⟨"actuated" :: fo.events, fo.request, true, none,
          some (swapRun env (ex.target.map Tgt.doc) ex.href.hash
            (content.map Content.text))⟩

/-- Listener behavior around one single swap: whether some listener on the
will-swap dispatch calls preventDefault, and likewise for the
will-be-swapped dispatch. -/
structure SwapListeners where
  willSwapPrevents : Bool
  willBeSwappedPrevents : Bool

/-- Observable outcome of insert: the events dispatched on the trigger
element and on the target, in order, and the style and nodes applied to the
target when the mutation ran. -/
structure InsertOutcome where
  triggerEvents : List String
  targetEvents : List String
  applied : Option (String × List Node)

/-- insert: with a null target nothing happens; otherwise will-swap is
dispatched on the trigger element and, when that dispatch returned true,
will-be-swapped on the target, both through dispatch with default options,
hence with cancelable left at false; when both dispatches return true the
content is applied to the target with the swap style, the inserted elements
are installed, and did-swap and was-swapped-away fire. -/
def insert (L : SwapListeners) (target : Option Tgt) (style : String)
    (content : List Node) : InsertOutcome :=
  match target with
  | none => ⟨[], [], none⟩
  | some _ =>
    if dispatchReturns {} L.willSwapPrevents then
      if dispatchReturns {} L.willBeSwappedPrevents then
        ⟨["whet:will-swap", "whet:did-swap"],
         ["whet:will-be-swapped", "whet:was-swapped-away"],
         some (style, content)⟩
      else
        ⟨["whet:will-swap"], ["whet:will-be-swapped"], none⟩
    else
      ⟨["whet:will-swap"], [], none⟩

/-- Turn the text after the on of a listener attribute name into the event
type: one optional leading dash or colon separator is stripped, and a
remaining leading colon (from a doubled separator) expands to the whet
namespace. -/
def stripOnName (name : String) : String :=
  let e := strDrop name 2
  let e := if strStartsWith e "-" || strStartsWith e ":" then strDrop e 1 else e
  if strStartsWith e ":" then "whet" ++ e else e

/-- installCustomEventAttributes: iterate the attribute list in order; the
source body exits the whole loop (a return statement, not a continue) on
the first attribute whose name does not start with on or that names a
builtin handler attribute; every attribute scanned before that point binds
a listener whose event type comes from stripOnName and whose body is the
attribute text. Returns the bound (event type, body) pairs in order. -/
def installCustomEventAttributes (builtinAttrs : List String) :
    List (String × String) → List (String × String)
  | [] => []
  | (name, value) :: rest =>
    if !(strStartsWith name "on") then []
    else if builtinAttrs.contains name then []
    else (stripOnName name, value) :: installCustomEventAttributes builtinAttrs rest

/-- Observable installation state: the installed set (a weak set of element
identities), the count of trigger listeners bound per element, and the logs
of elements that received will-install and init, in dispatch order. -/
structure InstallState where
  installedList : List Nat
  listeners : Nat → Nat
  willInstallLog : List Nat
  initLog : List Nat

/-- The per element body of install: an element already in the installed
set is skipped entirely; otherwise it is added, will-install fires, exactly
one trigger listener is bound by installHypermediaControls, the inline
listener attributes are wired, and init fires. -/
def installEl (s : InstallState) (e : Nat) : InstallState :=
  if s.installedList.contains e then s
  else
    { installedList := e :: s.installedList
      listeners := fun x => if x = e then s.listeners x + 1 else s.listeners x
      willInstallLog := s.willInstallLog ++ [e]
      initLog := s.initLog ++ [e] }

/-- One install call over a scanned subtree, given as the list of element
identities in the subtree that carry the opt-in attribute (including the
root itself when it matches). -/
def installScan (s : InstallState) (els : List Nat) : InstallState :=
  els.foldl installEl s

/-- Any number of install calls in sequence. -/
def installMany (s : InstallState) (scans : List (List Nat)) : InstallState :=
  scans.foldl installScan s

/-- A state with nothing installed and no listeners bound. -/
def freshInstallState : InstallState :=
  { installedList := [], listeners := fun _ => 0
    willInstallLog := [], initLog := [] }

/-- A host environment over an empty document, for concrete runs. -/
def env0 : Env :=
  { resolveUrl := fun s =>
      if s = "javascript:1+1" then ⟨"javascript", "1+1", [], ""⟩
      else ⟨"https", "/x", [], ""⟩
    query := fun _ => none
    body := 0
    decode := fun s => s
    selectAll := fun _ _ => []
    parse := fun _ => []
    evalJS := fun _ => none }

/-- An empty form state. -/
def fs0 : FormState := ⟨none, none, none⟩

/-- A plain opted-in control with no attributes of note. -/
def conf0 : ElemConf :=
  { attrs := [], selfId := 1, isAnchor := false, isForm := false
    formAtActuation := fs0, formAtFetch := fs0 }

/-- The exchange descriptor conf0 produces under env0. -/
def ex0 : HypEx :=
  { href := ⟨"https", "/x", [], ""⟩, method := "POST"
    enctype := "text/x-www-form-urlencoded", data := []
    target := some 0, swap := "replaceChildren" }

/-- A control pointing at a javascript: destination. -/
def confJS : ElemConf :=
  { attrs := [("data-href", "javascript:1+1")], selfId := 1
    isAnchor := false, isForm := false
    formAtActuation := fs0, formAtFetch := fs0 }

/-- A will-fetch event with no registered promises and a clear flag. -/
def wfTrivial : WillFetchEvent := ⟨[], false⟩

/-- A GET control whose form control value changes between actuation time
and fetch time. -/
def conf7 : ElemConf :=
  { attrs := [("data-method", "GET"), ("data-href", "/x")], selfId := 1
    isAnchor := false, isForm := false
    formAtActuation := ⟨none, none, some ("a", "1")⟩
    formAtFetch := ⟨none, none, some ("a", "2")⟩ }

/-- The exchange descriptor conf7 produces under env0. -/
def ex7 : HypEx :=
  { href := ⟨"https", "/x", [], ""⟩, method := "GET"
    enctype := "text/x-www-form-urlencoded", data := [("a", "1")]
    target := some 0, swap := "replaceChildren" }

/-- A control with an invalid swap attribute value. -/
def confBadSwap : ElemConf :=
  { attrs := [("swap", "frobnicate")], selfId := 1, isAnchor := false
    isForm := false, formAtActuation := fs0, formAtFetch := fs0 }

/-- A control with a valid explicit swap attribute value. -/
def confGoodSwap : ElemConf :=
  { attrs := [("swap", "after")], selfId := 1, isAnchor := false
    isForm := false, formAtActuation := fs0, formAtFetch := fs0 }

/-- A response fragment holding one opt-in template followed by a div. -/
def frag4 : List Node :=
  [Node.elem "template" [("whet", "")] [Node.text "hi"], Node.elem "div" [] []]

/-- An element is fully installed in a state: it is in the installed set,
carries exactly one bound trigger listener, and received will-install and
init exactly once. -/
def installedOnce (s : InstallState) (e : Nat) : Prop :=
  e ∈ s.installedList ∧ s.listeners e = 1 ∧
    s.willInstallLog.count e = 1 ∧ s.initLog.count e = 1

/-- An element is untouched by installation in a state: not in the
installed set, no bound trigger listener, no installation events. -/
def untouched (s : InstallState) (e : Nat) : Prop :=
  e ∉ s.installedList ∧ s.listeners e = 0 ∧
    s.willInstallLog.count e = 0 ∧ s.initLog.count e = 0

/-! ## Helper lemmas -/

/-- A list contains no element it does not hold. -/
theorem contains_eq_false_of_nmem {A : Type} [BEq A] [LawfulBEq A]
    (l : List A) (a : A) (h : a ∉ l) : l.contains a = false := by
  by_contra hc
  rw [Bool.not_eq_false] at hc
  exact h (List.mem_of_elem_eq_true hc)

/-- A list contains each of its members. -/
theorem contains_eq_true_of_mem {A : Type} [BEq A] [LawfulBEq A]
    (l : List A) (a : A) (h : a ∈ l) : l.contains a = true :=
  List.elem_eq_true_of_mem h

/-- The protocol property of every URL object ends in a colon, so comparing
it with the bare scheme name javascript is always false: the local script
evaluation branch of actuate is unreachable. -/
theorem protocol_beq_javascript (u : Url) :
    (Url.protocol u == "javascript") = false := by
  apply beq_eq_false_iff_ne.mpr
  intro h
  simp only [Url.protocol] at h
  have hd : (u.scheme ++ ":").data = "javascript".data := congrArg String.data h
  rw [String.data_append] at hd
  have h2 := congrArg List.getLast? hd
  rw [List.getLast?_concat] at h2
  rw [show ("javascript" : String).data.getLast? = some 't' from by decide] at h2
  exact absurd h2 (by decide)

/-! ## Claim theorems -/

/-- C3: the claim fails on the code. The protocol property of a URL object
keeps its trailing colon, so the comparison of protocol against the bare
string javascript inside actuate is false for every URL whatsoever and the
local evaluation branch calling runJSUri is unreachable; a javascript:
destination instead goes through doFetch, which dispatches will-fetch and
issues a network request for it. -/
theorem c3_javascript_branch_unreachable :
    (∀ u : Url, (Url.protocol u == "javascript") = false) ∧
    Url.protocol ⟨"javascript", "1+1", [], ""⟩ = "javascript:" ∧
    (actuate env0 confJS wfTrivial (NetResult.ok "ok")).events =
      ["actuated", "whet:will-fetch", "whet:did-fetch-headers",
       "whet:did-fetch"] ∧
    (actuate env0 confJS wfTrivial (NetResult.ok "ok")).request.isSome = true :=
  ⟨protocol_beq_javascript, rfl, rfl, rfl⟩

/-- C2: the claim fails on the code. The two pre-mutation swap events are
dispatched through the dispatch helper with no options, so the CustomEvent
objects are created with cancelable at its default false; preventDefault by
a listener is then a no-op, both dispatchEvent calls return true whatever
the listeners do, and insert applies the mutation and fires did-swap and
was-swapped-away even when a listener attempted to cancel. -/
theorem c2_swap_cancellation_impossible (L : SwapListeners) (t : Tgt)
    (style : String) (content : List Node) :
    insert L (some t) style content =
      ⟨["whet:will-swap", "whet:did-swap"],
       ["whet:will-be-swapped", "whet:was-swapped-away"],
       some (style, content)⟩ := rfl

/-- C9: the claim fails on the code. The attribute loop in
installCustomEventAttributes exits the whole function (a return statement
where a continue was needed) on the first attribute whose name does not
start with on or that names a builtin handler attribute, so a qualifying
on attribute placed after any other attribute binds no listener; the name
stripping and whet namespacing do behave as described for the attributes
the loop still reaches. -/
theorem c9_listener_loop_exits_early :
    installCustomEventAttributes ["onclick"]
        [("whet", ""), ("on:foo", "doFoo(event)")] = [] ∧
    installCustomEventAttributes ["onclick"]
        [("onclick", "x()"), ("on:foo", "doFoo(event)")] = [] ∧
    installCustomEventAttributes ["onclick"] [("on:foo", "doFoo(event)")] =
      [("foo", "doFoo(event)")] ∧
    installCustomEventAttributes ["onclick"] [("on-bar", "b()")] =
      [("bar", "b()")] ∧
    installCustomEventAttributes ["onclick"] [("on::init", "i()")] =
      [("whet:init", "i()")] := by
  refine ⟨?_, ?_, ?_, ?_, ?_⟩ <;> decide

/-- C8 counterexample: with a present target attribute whose selector
matches no element, getTarget returns null (the raw querySelector result),
not the document body as the claim states. -/
theorem c8_counterexample :
    getTarget 5 0 (fun _ => (none : Option Nat)) (some "#missing") = none ∧
    (none : Option Nat) ≠ some 0 := ⟨rfl, by decide⟩

/-- C8 (amended): target resolution returns the document body when the
target attribute is absent or empty, the element itself for the literal
:this, and for any other present value the raw querySelector result: the
first matching element, or null (not the body) when nothing matches. -/
theorem c8_target_resolution {A : Type} (self body : A)
    (query : String → Option A) (t : Option String) :
    (t = none ∨ t = some "" → getTarget self body query t = some body) ∧
    (t = some ":this" → getTarget self body query t = some self) ∧
    (∀ s, t = some s → s ≠ "" → s ≠ ":this" →
      getTarget self body query t = query s) := by
  refine ⟨?_, ?_, ?_⟩
  · rintro (rfl | rfl) <;> rfl
  · rintro rfl; rfl
  · rintro s rfl h1 h2
    simp [getTarget, h1, h2]

/-- C8 witness: the amended resolution rules at concrete inputs. -/
theorem c8_target_resolution_witness :
    getTarget 5 0 (fun _ => (none : Option Nat)) none = some 0 ∧
    getTarget 5 0 (fun _ => (none : Option Nat)) (some ":this") = some 5 ∧
    getTarget 5 0 (fun s => if s = "#a" then some 7 else none) (some "#a") =
      some 7 := by
  refine ⟨(c8_target_resolution 5 0 _ none).1 (Or.inl rfl),
    (c8_target_resolution 5 0 _ (some ":this")).2.1 rfl, ?_⟩
  rw [(c8_target_resolution 5 0 (fun s => if s = "#a" then some 7 else none)
    (some "#a")).2.2 "#a" rfl (by decide) (by decide)]
  rfl

/-- C5: for a GET or DELETE exchange the prepared request has a null body
and every collected form data entry is appended to the destination query
parameters; for every other method the body is the collected form data
encoded by the content type encoder and the URL is unchanged; when the
will-fetch wait settles uncancelled, doFetch hands exactly this body and
URL to fetch. -/
theorem c5_body_placement (m : String) (href : Url) (enc : String)
    (d : FormData) (wf : WillFetchEvent) (net : NetResult) :
    (m = "GET" ∨ m = "DELETE" →
      (prepareRequestContent m href enc d).1 = none ∧
      (prepareRequestContent m href enc d).2.query = href.query ++ d ∧
      ∀ p ∈ d, p ∈ (prepareRequestContent m href enc d).2.query) ∧
    (m ≠ "GET" → m ≠ "DELETE" →
      prepareRequestContent m href enc d = (some (encodeData enc d), href)) ∧
    (waitedSettles wf = true → wf.defaultPrevented = false →
      (doFetch wf net m href enc d).request =
        some ⟨m, (prepareRequestContent m href enc d).2,
          (prepareRequestContent m href enc d).1, [("Whet", "1")]⟩) := by
  refine ⟨?_, ?_, ?_⟩
  · intro hm
    have hc : httpMethodsWithoutBody.contains m = true := by
      apply contains_eq_true_of_mem
      rcases hm with rfl | rfl <;> simp [httpMethodsWithoutBody]
    have hpr : prepareRequestContent m href enc d =
        (none, { href with query := href.query ++ d }) := by
      simp only [prepareRequestContent, hc, if_true]
    rw [hpr]
    exact ⟨rfl, rfl, fun p hp => List.mem_append_right _ hp⟩
  · intro h1 h2
    have hc : httpMethodsWithoutBody.contains m = false := by
      apply contains_eq_false_of_nmem
      intro hm
      rcases List.mem_cons.mp hm with h | h
      · exact h1 h
      · exact h2 (List.mem_singleton.mp h)
    simp only [prepareRequestContent, hc, Bool.false_eq_true, if_false]
  · intro hw hp
    cases net <;> simp [doFetch, hw, hp, prepareRequestContent]

/-- C5 witness: the body placement rules at concrete inputs. -/
theorem c5_body_placement_witness :
    ((prepareRequestContent "GET" ⟨"https", "/x", [("q", "0")], ""⟩
        "text/x-www-form-urlencoded" [("a", "1")]).1 = none ∧
      (prepareRequestContent "GET" ⟨"https", "/x", [("q", "0")], ""⟩
        "text/x-www-form-urlencoded" [("a", "1")]).2.query =
        [("q", "0")] ++ [("a", "1")] ∧
      ∀ p ∈ [("a", "1")],
        p ∈ (prepareRequestContent "GET" ⟨"https", "/x", [("q", "0")], ""⟩
          "text/x-www-form-urlencoded" [("a", "1")]).2.query) ∧
    prepareRequestContent "POST" ⟨"https", "/x", [], ""⟩ "application/json"
      [("a", "1")] =
      (some (encodeData "application/json" [("a", "1")]), ⟨"https", "/x", [], ""⟩) ∧
    (doFetch wfTrivial (NetResult.ok "t") "GET" ⟨"https", "/x", [], ""⟩
        "text/x-www-form-urlencoded" [("a", "1")]).request =
      some ⟨"GET",
        (prepareRequestContent "GET" ⟨"https", "/x", [], ""⟩
          "text/x-www-form-urlencoded" [("a", "1")]).2,
        (prepareRequestContent "GET" ⟨"https", "/x", [], ""⟩
          "text/x-www-form-urlencoded" [("a", "1")]).1, [("Whet", "1")]⟩ :=
  ⟨(c5_body_placement "GET" ⟨"https", "/x", [("q", "0")], ""⟩
      "text/x-www-form-urlencoded" [("a", "1")] wfTrivial (NetResult.ok "t")).1
      (Or.inl rfl),
   (c5_body_placement "POST" ⟨"https", "/x", [], ""⟩ "application/json"
      [("a", "1")] wfTrivial (NetResult.ok "t")).2.1 (by decide) (by decide),
   (c5_body_placement "GET" ⟨"https", "/x", [], ""⟩
      "text/x-www-form-urlencoded" [("a", "1")] wfTrivial
      (NetResult.ok "t")).2.2 rfl rfl⟩

/-- C6: an element whose resolved swap attribute value lies outside the six
member enumeration makes the exchange fail synchronously inside
createExchange with the descriptive TypeError message, before any
lifecycle event (even actuated, hence in particular will-fetch) is
dispatched and before any request is issued; every value inside the
enumeration validates without an error. -/
theorem c6_invalid_swap_style_fails_fast (env : Env) (c : ElemConf)
    (wf : WillFetchEvent) (net : NetResult) :
    (∀ v, attrOf c.attrs "swap" = some v → v ∉ swapStyles →
      createExchange env c =
        Except.error ("Invalid swap style \"" ++ v ++ "\".") ∧
      (actuate env c wf net).confError =
        some ("Invalid swap style \"" ++ v ++ "\".") ∧
      (actuate env c wf net).events = [] ∧
      (actuate env c wf net).request = none) ∧
    (∀ v, attrOf c.attrs "swap" = some v → v ∈ swapStyles →
      ∃ ex, createExchange env c = Except.ok ex ∧ ex.swap = v) := by
  constructor
  · intro v hv hns
    have hc : swapStyles.contains v = false := contains_eq_false_of_nmem _ _ hns
    have herr : createExchange env c =
        Except.error ("Invalid swap style \"" ++ v ++ "\".") := by
      simp only [createExchange, getSwapStyle, asSwapStyle, hv, Option.getD,
        hc, Bool.false_eq_true, if_false]
    refine ⟨herr, ?_, ?_, ?_⟩ <;> simp only [actuate, herr]
  · intro v hv hs
    have hc : swapStyles.contains v = true := contains_eq_true_of_mem _ _ hs
    refine ⟨HypEx.mk (env.resolveUrl (getHrefStr c)) (getHttpMethod c)
      (getEnctype c) (getData c.formAtActuation)
      (getTarget c.selfId env.body env.query (attrOf c.attrs "target")) v,
      ?_, rfl⟩
    simp only [createExchange, getSwapStyle, asSwapStyle, hv, Option.getD,
      hc, if_true]

/-- C6 witness: the fast failure and the validation at concrete inputs. -/
theorem c6_invalid_swap_style_fails_fast_witness :
    (createExchange env0 confBadSwap =
      Except.error ("Invalid swap style \"" ++ "frobnicate" ++ "\".") ∧
     (actuate env0 confBadSwap wfTrivial (NetResult.ok "t")).confError =
      some ("Invalid swap style \"" ++ "frobnicate" ++ "\".") ∧
     (actuate env0 confBadSwap wfTrivial (NetResult.ok "t")).events = [] ∧
     (actuate env0 confBadSwap wfTrivial (NetResult.ok "t")).request = none) ∧
    ∃ ex, createExchange env0 confGoodSwap = Except.ok ex ∧ ex.swap = "after" :=
  ⟨(c6_invalid_swap_style_fails_fast env0 confBadSwap wfTrivial
      (NetResult.ok "t")).1 "frobnicate" rfl (by decide),
   (c6_invalid_swap_style_fails_fast env0 confGoodSwap wfTrivial
      (NetResult.ok "t")).2 "after" rfl (by decide)⟩

/-- C1: the will-fetch dispatcher awaits every promise registered through
waitUntil before proceeding: if some registered promise never settles, the
exchange never settles, did-fetch-headers and did-fetch never fire, and the
swap stage never runs, so no DOM mutation occurs; and whenever the wait
completes with the defaultPrevented flag of the event set, no request is
issued and doFetch yields null content, so the swap stage inserts
nothing. -/
theorem c1_will_fetch_gating (env : Env) (c : ElemConf) (wf : WillFetchEvent)
    (net : NetResult) (ex : HypEx)
    (hex : createExchange env c = Except.ok ex) :
    (waitedSettles wf = false →
      (actuate env c wf net).settled = false ∧
      (actuate env c wf net).swapResult = none ∧
      "whet:did-fetch-headers" ∉ (actuate env c wf net).events ∧
      "whet:did-fetch" ∉ (actuate env c wf net).events) ∧
    (waitedSettles wf = true → wf.defaultPrevented = true →
      (actuate env c wf net).request = none ∧
      (actuate env c wf net).swapResult = some (Except.ok ⟨[], none⟩)) := by
  have hjs := protocol_beq_javascript ex.href
  constructor
  · intro hw
    have hact : actuate env c wf net =
        ⟨"actuated" :: ["whet:will-fetch"], none, false, none, none⟩ := by
      simp only [actuate, hex, hjs, Bool.false_eq_true, if_false, doFetch, hw]
    rw [hact]
    refine ⟨rfl, rfl, ?_, ?_⟩ <;> decide
  · intro hw hp
    have hact : actuate env c wf net =
        ⟨"actuated" :: ["whet:will-fetch"], none, true, none,
          some (swapRun env (ex.target.map Tgt.doc) ex.href.hash
            (Option.map Content.text none))⟩ := by
      simp only [actuate, hex, hjs, Bool.false_eq_true, if_false, doFetch, hw,
        hp, if_true]
    rw [hact]
    refine ⟨rfl, ?_⟩
    cases ex.target <;> rfl

/-- C1 witness: the gating at concrete inputs: a single never settling
promise, and a settled wait with the cancellation flag set. -/
theorem c1_will_fetch_gating_witness :
    ((actuate env0 conf0 ⟨[PromiseB.never], false⟩ (NetResult.ok "t")).settled
        = false ∧
      (actuate env0 conf0 ⟨[PromiseB.never], false⟩
        (NetResult.ok "t")).swapResult = none ∧
      "whet:did-fetch-headers" ∉
        (actuate env0 conf0 ⟨[PromiseB.never], false⟩ (NetResult.ok "t")).events ∧
      "whet:did-fetch" ∉
        (actuate env0 conf0 ⟨[PromiseB.never], false⟩ (NetResult.ok "t")).events) ∧
    ((actuate env0 conf0 ⟨[], true⟩ (NetResult.ok "t")).request = none ∧
      (actuate env0 conf0 ⟨[], true⟩ (NetResult.ok "t")).swapResult =
        some (Except.ok ⟨[], none⟩)) :=
  ⟨(c1_will_fetch_gating env0 conf0 ⟨[PromiseB.never], false⟩
      (NetResult.ok "t") ex0 rfl).1 rfl,
   (c1_will_fetch_gating env0 conf0 ⟨[], true⟩ (NetResult.ok "t") ex0 rfl).2
      rfl rfl⟩

/-- C7 counterexample: a GET control whose form value changes between
actuation and request dispatch: the descriptor snapshot still holds the
actuation time value, but the issued request carries the fetch time value
as its query parameter, so the request is not derived from the snapshot
and the mutation did affect the in flight exchange. -/
theorem c7_counterexample :
    createExchange env0 conf7 = Except.ok ex7 ∧
    ex7.data = [("a", "1")] ∧
    (actuate env0 conf7 wfTrivial (NetResult.ok "t")).request =
      some ⟨"GET", ⟨"https", "/x", [("a", "2")], ""⟩, none, [("Whet", "1")]⟩ ∧
    [("a", "2")] ≠ [("a", "1")] := ⟨rfl, rfl, rfl, by decide⟩

/-- C7 (amended): the descriptor field data is a read only snapshot of form
state taken at actuation time, but the fetch stage re-collects form data
from the element at request time: the issued request does not depend on the
snapshot (replacing the actuation time form state changes nothing about
it), so form mutations between actuation and request dispatch do affect the
in flight exchange while leaving the snapshot unchanged. -/
theorem c7_snapshot_not_used_by_fetch (env : Env) (c : ElemConf)
    (wf : WillFetchEvent) (net : NetResult) (fs : FormState) :
    (∀ ex, createExchange env c = Except.ok ex →
      ex.data = getData c.formAtActuation) ∧
    (actuate env { c with formAtActuation := fs } wf net).request =
      (actuate env c wf net).request := by
  constructor
  · intro ex hex
    cases hsw : getSwapStyle (attrOf c.attrs "swap") with
    | error e => rw [createExchange, hsw] at hex; cases hex
    | ok sw =>
      rw [createExchange, hsw] at hex
      cases hex
      rfl
  · have h1 : getHrefStr { c with formAtActuation := fs } = getHrefStr c := rfl
    have h2 : getHttpMethod { c with formAtActuation := fs } = getHttpMethod c :=
      rfl
    have h3 : getEnctype { c with formAtActuation := fs } = getEnctype c := rfl
    cases hsw : getSwapStyle (attrOf c.attrs "swap") with
    | error e => simp only [actuate, createExchange, hsw]
    | ok sw => simp only [actuate, createExchange, hsw, h1, h2, h3]

/-- C7 witness: the amended statement at concrete inputs. -/
theorem c7_snapshot_not_used_by_fetch_witness :
    ex7.data = getData conf7.formAtActuation ∧
    (actuate env0 { conf7 with formAtActuation := fs0 } wfTrivial
        (NetResult.ok "t")).request =
      (actuate env0 conf7 wfTrivial (NetResult.ok "t")).request :=
  ⟨(c7_snapshot_not_used_by_fetch env0 conf7 wfTrivial (NetResult.ok "t")
      fs0).1 ex7 rfl,
   (c7_snapshot_not_used_by_fetch env0 conf7 wfTrivial (NetResult.ok "t")
      fs0).2⟩

/-- Processing a fragment for elsewhere swaps never removes a matched
template: the whet templates of the processed fragment correspond one to
one, in order and with identical attribute lists, to those of the original
fragment. -/
theorem processNodes_keeps_templates (env : Env) (l : List Node) :
    ∀ sw l2, processNodes env l = Except.ok (sw, l2) →
      (whetTemplates l2).map nodeAttrs = (whetTemplates l).map nodeAttrs := by
  induction l using processNodes.induct env with
  | case1 =>
    intro sw l2 h
    simp only [processNodes, Except.ok.injEq, Prod.mk.injEq] at h
    obtain ⟨rfl, rfl⟩ := h
    rfl
  | case2 s rest e hrest ih =>
    intro sw l2 h
    simp only [processNodes, hrest] at h
    exact Except.noConfusion h
  | case3 s rest sw0 rest2 hrest ih =>
    intro sw l2 h
    simp only [processNodes, hrest, Except.ok.injEq, Prod.mk.injEq] at h
    obtain ⟨rfl, rfl⟩ := h
    simpa only [whetTemplates] using ih sw0 rest2 hrest
  | case4 attrs children rest hw e hst =>
    intro sw l2 h
    simp only [processNodes, hw, hst, reduceIte] at h
    exact Except.noConfusion h
  | case5 attrs children rest hw st hst tgt t htgt e hrest ih =>
    intro sw l2 h
    have htgt2 : getTarget Tgt.self (Tgt.doc env.body)
        (fun s => Option.map Tgt.doc (env.query s)) (attrOf attrs "target") =
        some t := htgt
    simp only [processNodes, hw, hst, htgt2, reduceIte, hrest] at h
    exact Except.noConfusion h
  | case6 attrs children rest hw st hst tgt t htgt sw0 rest2 hrest ih =>
    intro sw l2 h
    have htgt2 : getTarget Tgt.self (Tgt.doc env.body)
        (fun s => Option.map Tgt.doc (env.query s)) (attrOf attrs "target") =
        some t := htgt
    simp only [processNodes, hw, hst, htgt2, reduceIte, hrest,
      Except.ok.injEq, Prod.mk.injEq] at h
    obtain ⟨rfl, rfl⟩ := h
    simp only [whetTemplates, hw, reduceIte, List.map_append, List.map_cons,
      nodeAttrs, List.singleton_append, List.map_nil, List.cons.injEq]
    exact ⟨trivial, ih sw0 rest2 hrest⟩
  | case7 attrs children rest hw st hst tgt htgt e hrest ih =>
    intro sw l2 h
    have htgt2 : getTarget Tgt.self (Tgt.doc env.body)
        (fun s => Option.map Tgt.doc (env.query s)) (attrOf attrs "target") =
        none := htgt
    simp only [processNodes, hw, hst, htgt2, reduceIte, hrest] at h
    exact Except.noConfusion h
  | case8 attrs children rest hw st hst tgt htgt sw0 rest2 hrest ih =>
    intro sw l2 h
    have htgt2 : getTarget Tgt.self (Tgt.doc env.body)
        (fun s => Option.map Tgt.doc (env.query s)) (attrOf attrs "target") =
        none := htgt
    simp only [processNodes, hw, hst, htgt2, reduceIte, hrest,
      Except.ok.injEq, Prod.mk.injEq] at h
    obtain ⟨rfl, rfl⟩ := h
    simp only [whetTemplates, hw, reduceIte, List.map_append, List.map_cons,
      nodeAttrs, List.singleton_append, List.map_nil, List.cons.injEq]
    exact ⟨trivial, ih sw0 rest2 hrest⟩
  | case9 attrs children rest hw e hrest ih =>
    intro sw l2 h
    simp only [processNodes, hw, reduceIte, hrest, Bool.false_eq_true,
      if_false] at h
    exact Except.noConfusion h
  | case10 attrs children rest hw sw0 rest2 hrest ih =>
    intro sw l2 h
    simp only [processNodes, hw, reduceIte, hrest, Bool.false_eq_true,
      if_false, Except.ok.injEq, Prod.mk.injEq] at h
    obtain ⟨rfl, rfl⟩ := h
    simp only [whetTemplates, hw, reduceIte, Bool.false_eq_true, if_false,
      List.nil_append]
    exact ih sw0 rest2 hrest
  | case11 tag attrs children rest htag e hch ih =>
    intro sw l2 h
    simp only [processNodes, htag, reduceIte, hch] at h
    exact Except.noConfusion h
  | case12 tag attrs children rest htag sw0 rest2 hch e hrest ihc ihr =>
    intro sw l2 h
    simp only [processNodes, htag, reduceIte, hch, hrest] at h
    exact Except.noConfusion h
  | case13 tag attrs children rest htag swc children2 hch sw0 rest2 hrest ihc ihr =>
    intro sw l2 h
    simp only [processNodes, htag, reduceIte, hch, hrest,
      Except.ok.injEq, Prod.mk.injEq] at h
    obtain ⟨rfl, rfl⟩ := h
    simp only [whetTemplates, htag, reduceIte, List.map_append]
    rw [ihc swc children2 hch, ihr sw0 rest2 hrest]

/-- Concrete evaluation of the elsewhere pass on frag4: the template is
recorded as a swap against the document body with its content, and remains
in the fragment emptied. -/
theorem processNodes_frag4 : processNodes env0 frag4 =
    Except.ok ([⟨Tgt.doc 0, "replaceChildren", [Node.text "hi"]⟩],
      [Node.elem "template" [("whet", "")] [], Node.elem "div" [] []]) := by
  simp +decide [frag4, processNodes, hasWhet, getSwapStyle, asSwapStyle,
    attrOf, getTarget, env0, swapStyles, List.lookup, Option.getD,
    Option.isSome, Option.map, List.contains, List.any]

/-- C4 counterexample: a response fragment holding one opt-in template: the
template is processed as an elsewhere swap against its own resolved target
(the document body by default) and its content is moved out, but the
template node is not removed from the fragment: the emptied whet template
still appears among the nodes handed to the primary insert, contrary to the
claim. -/
theorem c4_counterexample :
    swapRun env0 (some (Tgt.doc 1)) "" (some (Content.frag frag4)) =
      Except.ok ⟨[⟨Tgt.doc 0, "replaceChildren", [Node.text "hi"]⟩],
        some [Node.elem "template" [("whet", "")] [], Node.elem "div" [] []]⟩ ∧
    hasWhet (nodeAttrs (Node.elem "template" [("whet", "")] [])) = true := by
  constructor
  · rw [swapRun.eq_3, processNodes_frag4]
    rfl
  · decide

/-- C4 (amended): every opt-in template with a resolved target is processed
as an independent elsewhere swap against that target, built from its own
swap style and its content child nodes, and its content is emptied by the
move; but the template node itself is not removed from the fragment: the
whet templates after processing are the same, in order and with identical
attribute lists, as before, so such a template node does appear among the
nodes handed to the primary swap. -/
theorem c4_elsewhere_templates_not_removed (env : Env) (frag : List Node)
    (sw : List ESwap) (frag2 : List Node)
    (h : processNodes env frag = Except.ok (sw, frag2)) :
    (whetTemplates frag2).map nodeAttrs = (whetTemplates frag).map nodeAttrs ∧
    (∀ attrs children st t, hasWhet attrs = true →
      getSwapStyle (attrOf attrs "swap") = Except.ok st →
      getTarget Tgt.self (Tgt.doc env.body)
        (fun s => (env.query s).map Tgt.doc) (attrOf attrs "target") = some t →
      processNodes env [Node.elem "template" attrs children] =
        Except.ok ([⟨t, st, children⟩], [Node.elem "template" attrs []])) := by
  refine ⟨processNodes_keeps_templates env frag sw frag2 h, ?_⟩
  intro attrs children st t hw hst htgt
  simp only [processNodes, hw, hst, htgt, reduceIte]

/-- C4 witness: the amended statement at a concrete fragment. -/
theorem c4_elsewhere_templates_not_removed_witness :
    (whetTemplates [Node.elem "template" [("whet", "")] [],
        Node.elem "div" [] []]).map nodeAttrs =
      (whetTemplates frag4).map nodeAttrs ∧
    processNodes env0 [Node.elem "template" [("whet", "")] [Node.text "hi"]] =
      Except.ok ([⟨Tgt.doc 0, "replaceChildren", [Node.text "hi"]⟩],
        [Node.elem "template" [("whet", "")] []]) := by
  have h4 := processNodes_frag4
  exact ⟨(c4_elsewhere_templates_not_removed env0 frag4 _ _ h4).1,
    (c4_elsewhere_templates_not_removed env0 frag4 _ _ h4).2
      [("whet", "")] [Node.text "hi"] "replaceChildren" (Tgt.doc 0)
      rfl rfl rfl⟩

/-- Installing an untouched element installs it exactly once. -/
theorem installEl_untouched (s : InstallState) (e : Nat)
    (h : untouched s e) : installedOnce (installEl s e) e := by
  obtain ⟨h1, h2, h3, h4⟩ := h
  have hc : s.installedList.contains e = false := contains_eq_false_of_nmem _ _ h1
  simp only [installEl, hc, Bool.false_eq_true, if_false]
  refine ⟨List.mem_cons_self _ _, ?_, ?_, ?_⟩
  · simpa using h2
  · simp [List.count_append, List.count_cons, h3]
  · simp [List.count_append, List.count_cons, h4]

/-- Installing anything preserves full installation of an element. -/
theorem installEl_keeps_installedOnce (s : InstallState) (e x : Nat)
    (h : installedOnce s e) : installedOnce (installEl s x) e := by
  obtain ⟨h1, h2, h3, h4⟩ := h
  by_cases hx : x ∈ s.installedList
  · simp only [installEl, contains_eq_true_of_mem _ _ hx, if_true]
    exact ⟨h1, h2, h3, h4⟩
  · have hxe : x ≠ e := fun hh => hx (hh ▸ h1)
    have hc : s.installedList.contains x = false :=
      contains_eq_false_of_nmem _ _ hx
    simp only [installEl, hc, Bool.false_eq_true, if_false]
    refine ⟨List.mem_cons_of_mem _ h1, ?_, ?_, ?_⟩
    · simpa [Ne.symm hxe] using h2
    · simpa [List.count_append, List.count_cons, hxe] using h3
    · simpa [List.count_append, List.count_cons, hxe] using h4

/-- Installing a different element leaves an untouched element
untouched. -/
theorem installEl_keeps_untouched (s : InstallState) (e x : Nat)
    (hxe : x ≠ e) (h : untouched s e) : untouched (installEl s x) e := by
  obtain ⟨h1, h2, h3, h4⟩ := h
  by_cases hx : x ∈ s.installedList
  · simp only [installEl, contains_eq_true_of_mem _ _ hx, if_true]
    exact ⟨h1, h2, h3, h4⟩
  · have hc : s.installedList.contains x = false :=
      contains_eq_false_of_nmem _ _ hx
    simp only [installEl, hc, Bool.false_eq_true, if_false]
    refine ⟨?_, ?_, ?_, ?_⟩
    · intro hmem
      rcases List.mem_cons.mp hmem with hh | hh
      · exact hxe hh.symm
      · exact h1 hh
    · simpa [Ne.symm hxe] using h2
    · simpa [List.count_append, List.count_cons, hxe] using h3
    · simpa [List.count_append, List.count_cons, hxe] using h4

/-- A whole scan preserves full installation of an element. -/
theorem installScan_keeps_installedOnce (l : List Nat) :
    ∀ s e, installedOnce s e → installedOnce (installScan s l) e := by
  induction l with
  | nil => intro s e h; exact h
  | cons x xs ih =>
    intro s e h
    exact ih (installEl s x) e (installEl_keeps_installedOnce s e x h)

/-- A scan not containing an element leaves it untouched. -/
theorem installScan_keeps_untouched (l : List Nat) :
    ∀ s e, e ∉ l → untouched s e → untouched (installScan s l) e := by
  induction l with
  | nil => intro s e _ h; exact h
  | cons x xs ih =>
    intro s e hne h
    have hxe : x ≠ e := fun hh => hne (hh ▸ List.mem_cons_self x xs)
    have hxs : e ∉ xs := fun hh => hne (List.mem_cons_of_mem x hh)
    exact ih (installEl s x) e hxs (installEl_keeps_untouched s e x hxe h)

/-- A scan containing an untouched element installs it exactly once. -/
theorem installScan_installs (l : List Nat) :
    ∀ s e, e ∈ l → untouched s e → installedOnce (installScan s l) e := by
  induction l with
  | nil => intro s e h; exact absurd h (by simp)
  | cons x xs ih =>
    intro s e hmem h
    by_cases hx : x = e
    · subst hx
      exact installScan_keeps_installedOnce xs (installEl s x) x
        (installEl_untouched s x h)
    · have hxs : e ∈ xs := by
        rcases List.mem_cons.mp hmem with hh | hh
        · exact absurd hh.symm hx
        · exact hh
      exact ih (installEl s x) e hxs (installEl_keeps_untouched s e x hx h)

/-- Any sequence of scans preserves full installation of an element. -/
theorem installMany_keeps_installedOnce (scans : List (List Nat)) :
    ∀ s e, installedOnce s e → installedOnce (installMany s scans) e := by
  induction scans with
  | nil => intro s e h; exact h
  | cons l ls ih =>
    intro s e h
    exact ih (installScan s l) e (installScan_keeps_installedOnce l s e h)

/-- Any sequence of scans one of which holds an untouched element installs
it exactly once. -/
theorem installMany_installs (scans : List (List Nat)) :
    ∀ s e, untouched s e → (∃ l ∈ scans, e ∈ l) →
      installedOnce (installMany s scans) e := by
  induction scans with
  | nil =>
    intro s e _ h
    obtain ⟨l, hl, _⟩ := h
    exact absurd hl (by simp)
  | cons l ls ih =>
    intro s e hu h
    by_cases hel : e ∈ l
    · exact installMany_keeps_installedOnce ls (installScan s l) e
        (installScan_installs l s e hel hu)
    · have hu2 := installScan_keeps_untouched l s e hel hu
      obtain ⟨l0, hl0, hel0⟩ := h
      rcases List.mem_cons.mp hl0 with rfl | hl0s
      · exact absurd hel0 hel
      · exact ih (installScan s l) e hu2 ⟨l0, hl0s, hel0⟩

/-- C10: running install any number of times over subtrees containing an
opted in element, starting from a fresh state, binds exactly one trigger
listener on it and dispatches will-install and init exactly once; an
element already in the installed set is skipped entirely, so re-scanning an
already installed element is a no-op. -/
theorem c10_install_idempotent (scans : List (List Nat)) (e : Nat)
    (hscan : ∃ l ∈ scans, e ∈ l) :
    (installMany freshInstallState scans).listeners e = 1 ∧
    (installMany freshInstallState scans).willInstallLog.count e = 1 ∧
    (installMany freshInstallState scans).initLog.count e = 1 ∧
    ∀ s : InstallState, e ∈ s.installedList → installEl s e = s := by
  have hu : untouched freshInstallState e := by
    simp [untouched, freshInstallState]
  obtain ⟨_, h2, h3, h4⟩ := installMany_installs scans freshInstallState e hu hscan
  refine ⟨h2, h3, h4, fun s hs => ?_⟩
  simp only [installEl, contains_eq_true_of_mem _ _ hs, if_true]

/-- C10 witness: two scans of the same element install it once. -/
theorem c10_install_idempotent_witness :
    (installMany freshInstallState [[3], [3]]).listeners 3 = 1 ∧
    (installMany freshInstallState [[3], [3]]).willInstallLog.count 3 = 1 ∧
    (installMany freshInstallState [[3], [3]]).initLog.count 3 = 1 ∧
    ∀ s : InstallState, 3 ∈ s.installedList → installEl s 3 = s :=
  c10_install_idempotent [[3], [3]] 3
    ⟨[3], List.mem_cons_self _ _, List.mem_singleton.mpr rfl⟩

end Whet
